import Mathlib

/-!
Shallow embedding of the text-width comparison tool (a Vue application with a
single-field comparison view and a multi-field comparison view, both defined in
the repository's view components reachable from the router).

Widths are modelled as exact rationals (`Px`); the browser's rendering surface
is modelled as an oracle `render : String → Px` returning the rendered pixel
width that `getBoundingClientRect().width` reports for one line of content in
the fixed measurement font.  The measurement functions additionally return the
list of contents successively written to the field's off-screen measurement
span (each write is immediately followed by one geometry read in the source),
so that claims about the surface being invoked or not can be stated.  The
mounted measurement spans are modelled as present.
-/

namespace TextWidthTool

/-- Pixel widths with fractional precision, modelled as exact rationals. -/
abbrev Px := ℚ

/-- Constant `EM_TO_PX = 16`: 1 em equals the 16px font size. -/
def EM_TO_PX : ℤ := 16

/-- Maximum character count of each text input (`maxLength = 300`). -/
def maxLength : ℕ := 300

/-- Theoretical reference width: `EM_TO_PX * referenceCharCount`.  The same
computed value appears in the single-field and in the multi-field view. -/
def theoreticalReferenceWidth (referenceCharCount : ℤ) : ℤ :=
  EM_TO_PX * referenceCharCount

/-- Reference text: the full-width character あ repeated `referenceCharCount`
times. -/
def referenceText (referenceCharCount : ℤ) : String :=
  String.mk (List.replicate referenceCharCount.toNat 'あ')

/-- Classification of one code point by the character class
`[぀-ゟ゠-ヿ一-鿿]` used in `countCharacters`.
JavaScript iterates the string by code point; a surrogate pair never matches
the class (surrogate code units lie in D800–DFFF), and a supplementary code
point is numerically above 9FFF, so testing the code point directly is
equivalent to the source's per-iteration regular-expression test. -/
def isFullWidth (c : Char) : Bool :=
  (0x3040 ≤ c.toNat && c.toNat ≤ 0x309F) ||
  (0x30A0 ≤ c.toNat && c.toNat ≤ 0x30FF) ||
  (0x4E00 ≤ c.toNat && c.toNat ≤ 0x9FFF)

/-- Result record of `countCharacters`. -/
structure CharCounts where
  fullWidth : ℕ
  halfWidth : ℕ
deriving DecidableEq

/-- Count of full-width and half-width characters: the source loops over the
string's code points with two mutable counters. -/
def countCharacters (text : String) : CharCounts :=
  text.data.foldl
    (fun counts char =>
      if isFullWidth char then { counts with fullWidth := counts.fullWidth + 1 }
      else { counts with halfWidth := counts.halfWidth + 1 })
    { fullWidth := 0, halfWidth := 0 }

/-- Splitting a character list at every line-break character, modelling
JavaScript `text.split('\n')`: the empty string yields one empty line, and a
trailing line break yields a trailing empty line. -/
def splitNewlines : List Char → List (List Char)
  | [] => [[]]
  | c :: cs =>
    if c = '\n' then [] :: splitNewlines cs
    else
      match splitNewlines cs with
      | [] => [[c]]
      | line :: more => (c :: line) :: more

/-- Lines of a text, modelling `text.split('\n')` on strings. -/
def splitLines (text : String) : List String :=
  (splitNewlines text.data).map String.mk

/-- Loop of the Width Measurer: write each line to the measurement span, read
its rendered width, and keep the running maximum (starting from 0). -/
def measureLines (render : String → Px) (text : String) : Px :=
  (splitLines text).foldl
    (fun maxWidth line => if maxWidth < render line then render line else maxWidth) 0

/-- Bar normalization in the single-field view: the reference bar's displayed
percentage. -/
def referenceBarWidth (referenceWidth inputWidth : Px) : Px :=
  if 0 < max referenceWidth inputWidth then
    referenceWidth / max referenceWidth inputWidth * 100
  else 0

/-- Bar normalization in the single-field view: the input bar's displayed
percentage. -/
def inputBarWidth (referenceWidth inputWidth : Px) : Px :=
  if 0 < max referenceWidth inputWidth then
    inputWidth / max referenceWidth inputWidth * 100
  else 0

/-- Reactive state of the single-field comparison view. -/
structure SingleState where
  inputText : String
  referenceCharCount : ℤ
  referenceWidth : Px
  inputWidth : Px
  fontLoaded : Bool
deriving DecidableEq

/-- Single-field `measureWidth`: re-measure the reference line, then, when the
input text is non-empty (JavaScript truthiness of the string), measure the
maximum line width; an empty input sets the width to 0 without touching the
input measurement span.  The second component is the list of contents written
to the input measurement span. -/
def SingleState.measureWidth (render : String → Px) (s : SingleState) :
    SingleState × List String :=
  let newReferenceWidth := render (referenceText s.referenceCharCount)
  if s.inputText ≠ "" then
    ({ s with
        referenceWidth := newReferenceWidth
        inputWidth := measureLines render s.inputText },
      splitLines s.inputText)
  else
    ({ s with referenceWidth := newReferenceWidth, inputWidth := 0 }, [])

/-- Single-field `handleReferenceCharCountChange`: clamp the count to at least
1, then re-measure. -/
def SingleState.handleReferenceCharCountChange (render : String → Px) (s : SingleState) :
    SingleState × List String :=
  (if s.referenceCharCount < 1 then { s with referenceCharCount := 1 } else s).measureWidth
    render

/-- Single-field `onMounted`: await the font-load call; on resolution set
`fontLoaded` and run the initial measurement, and on rejection (the catch
branch) log the error, set `fontLoaded` anyway, and run the same initial
measurement. -/
def SingleState.onMounted (render : String → Px) (fontLoadRejects : Bool) (s : SingleState) :
    SingleState :=
  if fontLoadRejects then
    (({ s with fontLoaded := true }).measureWidth render).1
  else
    (({ s with fontLoaded := true }).measureWidth render).1

/-- Per-field state of the multi-field view (`TextAreaData`). -/
structure TextAreaData where
  text : String
  width : Px
  fullWidthCount : ℕ
  halfWidthCount : ℕ
  exceedsReference : Bool
deriving DecidableEq

/-- Reactive state of the multi-field comparison view. -/
structure MultiState where
  textAreas : List TextAreaData
  referenceCharCount : ℤ
  referenceWidth : Px
  fontLoaded : Bool
deriving DecidableEq

/-- Multi-field `measureWidth(index)`: re-measure the shared reference line;
return early when no field exists at `index`; otherwise write every line of the
field's text to its measurement span keeping the maximum width (note: no
empty-text guard here, unlike the single-field view), recount its characters,
and recompute its `exceedsReference` flag against the theoretical reference
width.  The second component is the list of contents written to the field's
measurement span. -/
def MultiState.measureWidth (render : String → Px) (s : MultiState) (index : ℕ) :
    MultiState × List String :=
  let newReferenceWidth := render (referenceText s.referenceCharCount)
  match s.textAreas[index]? with
  | none => ({ s with referenceWidth := newReferenceWidth }, [])
  | some textarea =>
      let newWidth := measureLines render textarea.text
      let counts := countCharacters textarea.text
      let updated : TextAreaData :=
        { textarea with
            width := newWidth
            fullWidthCount := counts.fullWidth
            halfWidthCount := counts.halfWidth
            exceedsReference :=
              decide ((theoreticalReferenceWidth s.referenceCharCount : ℚ) < newWidth) }
      ({ s with
          referenceWidth := newReferenceWidth
          textAreas := s.textAreas.set index updated },
        splitLines textarea.text)

/-- Multi-field `inputCharCount(index)`: the field's text length, or 0 when no
field exists at `index` (optional chaining with a 0 default). -/
def MultiState.inputCharCount (s : MultiState) (index : ℕ) : ℕ :=
  match s.textAreas[index]? with
  | some textarea => textarea.text.length
  | none => 0

/-- Measurement pass over every field, modelling
`textAreas.value.forEach((_, index) => measureWidth(index))`. -/
def MultiState.measureAll (render : String → Px) (s : MultiState) : MultiState :=
  (List.range s.textAreas.length).foldl
    (fun state index => (state.measureWidth render index).1) s

/-- Multi-field `handleReferenceCharCountChange`: clamp the count to at least
1, then re-measure every field. -/
def MultiState.handleReferenceCharCountChange (render : String → Px) (s : MultiState) :
    MultiState :=
  (if s.referenceCharCount < 1 then { s with referenceCharCount := 1 } else s).measureAll
    render

/-- Multi-field `onMounted`: await the font-load call; on resolution set
`fontLoaded` and run the initial measurement pass over every field; on
rejection (the catch branch) log the error and set `fontLoaded` only — this
branch performs no measurement pass. -/
def MultiState.onMounted (render : String → Px) (fontLoadRejects : Bool) (s : MultiState) :
    MultiState :=
  if fontLoadRejects then
    { s with fontLoaded := true }
  else
    ({ s with fontLoaded := true }).measureAll render

/-- Fresh field with a given text, as initialized in the multi-field view. -/
def defaultTextArea (text : String) : TextAreaData :=
  { text := text, width := 0, fullWidthCount := 0, halfWidthCount := 0,
    exceedsReference := false }

/-- Initial state of the multi-field view, with its three default sample
texts and the default reference count 35. -/
def initialMultiState : MultiState :=
  { textAreas :=
      [defaultTextArea "あいうえおかきくけこ1234567890",
        defaultTextArea "あいうえおかきくけこあいうえおかきくけこあいうえおかきくけこあいうえお",
        defaultTextArea
          "あいうえおかきくけこ1234567890あいうえおかきくけこ1234567890\nあいうえおかきくけこ1234567890あいうえおかきくけこ1234567890あいうえお"],
    referenceCharCount := 35,
    referenceWidth := 0,
    fontLoaded := false }

/-- Rendering oracle that reports width 0 for any content. -/
def zeroRender : String → Px := fun _ => 0

/-- Rendering oracle that reports width 1 for any content. -/
def unitRender : String → Px := fun _ => 1

/-- Multi-field state holding a single field whose text is empty. -/
def emptyFieldState : MultiState :=
  { textAreas := [defaultTextArea ""], referenceCharCount := 35, referenceWidth := 0,
    fontLoaded := true }

/-- Single-field state whose input text is empty. -/
def singleEmptyState : SingleState :=
  { inputText := "", referenceCharCount := 35, referenceWidth := 0, inputWidth := 0,
    fontLoaded := true }

/-- Single-field state with input text `abc` and a given reference count. -/
def singleStateWithCount (n : ℤ) : SingleState :=
  { inputText := "abc", referenceCharCount := n, referenceWidth := 0, inputWidth := 0,
    fontLoaded := true }

/-- Multi-field state with one field of text `a` and reference count 1. -/
def smallMultiState : MultiState :=
  { textAreas := [defaultTextArea "a"], referenceCharCount := 1, referenceWidth := 0,
    fontLoaded := true }

/-- Field resulting from measuring `smallMultiState`'s only field with
`unitRender`. -/
def smallMeasuredField : TextAreaData :=
  { text := "a", width := 1, fullWidthCount := 0, halfWidthCount := 1,
    exceedsReference := false }

/-- Rendering oracle used to exercise the multi-line maximum: line `a` renders
at 40px, line `bb` at 120px, anything else at 75px. -/
def sampleRender : String → Px := fun line =>
  if line = "a" then 40 else if line = "bb" then 120 else 75

/-- Splitting a character list always yields at least one line. -/
theorem splitNewlines_ne_nil (l : List Char) : splitNewlines l ≠ [] := by
  induction l with
  | nil => simp [splitNewlines]
  | cons c cs ih =>
      simp only [splitNewlines]
      by_cases h : c = '\n'
      · simp [h]
      · rw [if_neg h]
        cases hr : splitNewlines cs with
        | nil => simp
        | cons line more => simp

/-- Splitting a string always yields at least one line. -/
theorem splitLines_ne_nil (text : String) : splitLines text ≠ [] := by
  unfold splitLines
  intro h
  rcases List.map_eq_nil_iff.mp h with h'
  exact splitNewlines_ne_nil text.data h'

/-- The running-maximum loop never goes below its seed. -/
theorem seed_le_measureFoldl (render : String → Px) (lines : List String) :
    ∀ w : Px,
      w ≤ lines.foldl
        (fun maxWidth line => if maxWidth < render line then render line else maxWidth) w := by
  induction lines with
  | nil => intro w; exact le_refl w
  | cons x xs ih =>
      intro w
      rw [List.foldl_cons]
      refine le_trans ?_ (ih _)
      by_cases h : w < render x
      · rw [if_pos h]; exact le_of_lt h
      · rw [if_neg h]

/-- Every line's rendered width is below the running maximum. -/
theorem line_le_measureFoldl (render : String → Px) (lines : List String) :
    ∀ (w : Px), ∀ l ∈ lines,
      render l ≤ lines.foldl
        (fun maxWidth line => if maxWidth < render line then render line else maxWidth) w := by
  induction lines with
  | nil => intro w l hl; cases hl
  | cons x xs ih =>
      intro w l hl
      rw [List.foldl_cons]
      rcases List.mem_cons.mp hl with h | h
      · subst h
        refine le_trans ?_ (seed_le_measureFoldl render xs _)
        by_cases hx : w < render l
        · rw [if_pos hx]
        · rw [if_neg hx]; exact le_of_not_lt hx
      · exact ih _ l h

/-- The running maximum is the seed or one of the rendered line widths. -/
theorem measureFoldl_mem (render : String → Px) (lines : List String) :
    ∀ w : Px,
      lines.foldl
          (fun maxWidth line => if maxWidth < render line then render line else maxWidth) w = w ∨
      lines.foldl
          (fun maxWidth line => if maxWidth < render line then render line else maxWidth) w ∈
        lines.map render := by
  induction lines with
  | nil => intro w; left; rfl
  | cons x xs ih =>
      intro w
      rw [List.foldl_cons]
      rcases ih (if w < render x then render x else w) with h | h
      · by_cases hx : w < render x
        · right
          rw [h, if_pos hx, List.map_cons]
          exact List.mem_cons_self _ _
        · left
          rw [h, if_neg hx]
      · right
        rw [List.map_cons]
        exact List.mem_cons_of_mem _ h

/-- Every line's rendered width is below the measured width of the text. -/
theorem line_le_measureLines (render : String → Px) (text : String) :
    ∀ l ∈ splitLines text, render l ≤ measureLines render text := by
  intro l hl
  unfold measureLines
  exact line_le_measureFoldl render (splitLines text) 0 l hl

/-- The measured width of the text is 0 or one of the rendered line widths. -/
theorem measureLines_eq_zero_or_mem (render : String → Px) (text : String) :
    measureLines render text = 0 ∨
    measureLines render text ∈ (splitLines text).map render := by
  unfold measureLines
  exact measureFoldl_mem render (splitLines text) 0

/-- Closed form of `countCharacters` as two predicate counts over the code
points. -/
theorem countCharacters_data (text : String) :
    countCharacters text =
      { fullWidth := text.data.countP isFullWidth,
        halfWidth := text.data.countP (fun c => !isFullWidth c) } := by
  have key : ∀ (l : List Char) (counts : CharCounts),
      l.foldl
          (fun counts char =>
            if isFullWidth char then { counts with fullWidth := counts.fullWidth + 1 }
            else { counts with halfWidth := counts.halfWidth + 1 }) counts =
        { fullWidth := counts.fullWidth + l.countP isFullWidth,
          halfWidth := counts.halfWidth + l.countP (fun c => !isFullWidth c) } := by
    intro l
    induction l with
    | nil => intro counts; simp
    | cons c cs ih =>
        intro counts
        rw [List.foldl_cons]
        by_cases h : isFullWidth c = true
        · rw [if_pos h, ih]
          have h1 : List.countP isFullWidth (c :: cs) = List.countP isFullWidth cs + 1 :=
            List.countP_cons_of_pos _ _ h
          have h2 : List.countP (fun x => !isFullWidth x) (c :: cs) =
              List.countP (fun x => !isFullWidth x) cs :=
            List.countP_cons_of_neg _ _ (by simp [h])
          rw [h1, h2]
          simp only [CharCounts.mk.injEq]
          constructor <;> first | trivial | omega
        · have hb : isFullWidth c = false := by
            cases hc : isFullWidth c
            · rfl
            · exact absurd hc h
          rw [if_neg h, ih]
          have h1 : List.countP isFullWidth (c :: cs) = List.countP isFullWidth cs :=
            List.countP_cons_of_neg _ _ (by simp [hb])
          have h2 : List.countP (fun x => !isFullWidth x) (c :: cs) =
              List.countP (fun x => !isFullWidth x) cs + 1 :=
            List.countP_cons_of_pos _ _ (by simp [hb])
          rw [h1, h2]
          simp only [CharCounts.mk.injEq]
          constructor <;> first | trivial | omega
  unfold countCharacters
  rw [key]
  simp

/-- The single-field measurer leaves the reference count unchanged. -/
theorem SingleState.singleMeasure_referenceCharCount (render : String → Px) (s : SingleState) :
    ((s.measureWidth render).1).referenceCharCount = s.referenceCharCount := by
  unfold SingleState.measureWidth
  split <;> rfl

/-- The single-field measurer leaves the font flag unchanged. -/
theorem SingleState.measureWidth_fontLoaded (render : String → Px) (s : SingleState) :
    ((s.measureWidth render).1).fontLoaded = s.fontLoaded := by
  unfold SingleState.measureWidth
  split <;> rfl

/-- The multi-field measurer leaves the reference count unchanged. -/
theorem MultiState.multiMeasure_referenceCharCount (render : String → Px) (s : MultiState)
    (index : ℕ) :
    ((s.measureWidth render index).1).referenceCharCount = s.referenceCharCount := by
  unfold MultiState.measureWidth
  split <;> rfl

/-- A full measurement pass leaves the reference count unchanged. -/
theorem MultiState.measureAll_referenceCharCount (render : String → Px) (s : MultiState) :
    (s.measureAll render).referenceCharCount = s.referenceCharCount := by
  unfold MultiState.measureAll
  generalize List.range s.textAreas.length = idxs
  induction idxs generalizing s with
  | nil => rfl
  | cons i is ih =>
      rw [List.foldl_cons, ih ((s.measureWidth render i).1),
        MultiState.multiMeasure_referenceCharCount]

/-- Field stored at `index` after a multi-field measurement of `index`. -/
theorem MultiState.measureWidth_get (render : String → Px) (s : MultiState) (index : ℕ)
    (ta : TextAreaData) (hta : s.textAreas[index]? = some ta) :
    ((s.measureWidth render index).1.textAreas)[index]? =
      some { ta with
        width := measureLines render ta.text
        fullWidthCount := (countCharacters ta.text).fullWidth
        halfWidthCount := (countCharacters ta.text).halfWidth
        exceedsReference :=
          decide ((theoreticalReferenceWidth s.referenceCharCount : ℚ) <
            measureLines render ta.text) } := by
  have hlt : index < s.textAreas.length := (List.getElem?_eq_some.mp hta).1
  simp [MultiState.measureWidth, hta, List.getElem?_set, hlt]

/-- C8: the theoretical reference width is the pure, total function
`charCount × EM_TO_PX` with `EM_TO_PX = 16`: for every integer N,
`theoreticalReferenceWidth N = 16 × N` (so N = 35 gives 560 and N = 1 gives
16), and the result is always an exact multiple of 16. -/
theorem theoreticalReferenceWidth_sixteen_times :
    (∀ n : ℤ, theoreticalReferenceWidth n = 16 * n) ∧
    theoreticalReferenceWidth 35 = 560 ∧
    theoreticalReferenceWidth 1 = 16 ∧
    (∀ n : ℤ, (16 : ℤ) ∣ theoreticalReferenceWidth n) :=
  ⟨fun _ => rfl, by decide, by decide, fun n => ⟨n, rfl⟩⟩

/-- C9: the classifier counts each iterated code point exactly once, so
`fullWidthCount + halfWidthCount` equals the number of Unicode code points of
the string; an astral-plane character such as 😀 is one code point and
contributes exactly 1 to `halfWidthCount`. -/
theorem countCharacters_total_eq_length :
    (∀ text : String,
        (countCharacters text).fullWidth + (countCharacters text).halfWidth = text.length) ∧
    countCharacters "😀" = { fullWidth := 0, halfWidth := 1 } ∧
    "😀".length = 1 := by
  refine ⟨?_, by decide, by decide⟩
  intro text
  rw [countCharacters_data]
  have heq : (fun c => decide ¬(isFullWidth c = true)) = (fun c => !isFullWidth c) := by
    funext c
    cases h : isFullWidth c <;> simp [h]
  have hlen := List.length_eq_countP_add_countP isFullWidth text.data
  rw [heq] at hlen
  show text.data.countP isFullWidth + text.data.countP (fun c => !isFullWidth c) = text.length
  have hsl : text.length = text.data.length := rfl
  rw [hsl, hlen]

/-- C4: the classifier iterates the input by Unicode code point and classifies
a code point as full-width exactly when it lies in U+3040–U+309F,
U+30A0–U+30FF or U+4E00–U+9FFF: a string made only of code points in those
ranges yields `fullWidthCount = length` and `halfWidthCount = 0`, an
ASCII-only string yields `fullWidthCount = 0` and `halfWidthCount = length`,
and the empty string yields both counts 0. -/
theorem countCharacters_unicode_ranges :
    (∀ text : String,
        (∀ c ∈ text.data,
            (0x3040 ≤ c.toNat ∧ c.toNat ≤ 0x309F) ∨
            (0x30A0 ≤ c.toNat ∧ c.toNat ≤ 0x30FF) ∨
            (0x4E00 ≤ c.toNat ∧ c.toNat ≤ 0x9FFF)) →
        countCharacters text = { fullWidth := text.length, halfWidth := 0 }) ∧
    (∀ text : String, (∀ c ∈ text.data, c.toNat ≤ 0x7F) →
        countCharacters text = { fullWidth := 0, halfWidth := text.length }) ∧
    countCharacters "" = { fullWidth := 0, halfWidth := 0 } := by
  refine ⟨?_, ?_, by decide⟩
  · intro text h
    have hall : ∀ c ∈ text.data, isFullWidth c = true := by
      intro c hc
      have hr := h c hc
      simp only [isFullWidth, Bool.or_eq_true, Bool.and_eq_true, decide_eq_true_eq]
      omega
    have h1 : text.data.countP isFullWidth = text.data.length :=
      List.countP_eq_length.mpr hall
    have h2 : text.data.countP (fun c => !isFullWidth c) = 0 :=
      List.countP_eq_zero.mpr (fun c hc => by simp [hall c hc])
    rw [countCharacters_data, h1, h2]
    rfl
  · intro text h
    have hall : ∀ c ∈ text.data, isFullWidth c = false := by
      intro c hc
      have hr := h c hc
      simp only [isFullWidth, Bool.or_eq_false_iff, Bool.and_eq_false_iff,
        decide_eq_false_iff_not]
      omega
    have h1 : text.data.countP isFullWidth = 0 :=
      List.countP_eq_zero.mpr (fun c hc => by simp [hall c hc])
    have h2 : text.data.countP (fun c => !isFullWidth c) = text.data.length :=
      List.countP_eq_length.mpr (fun c hc => by simp [hall c hc])
    rw [countCharacters_data, h1, h2]
    rfl

/-- Witness for C4 at concrete inputs: a string of three full-width code
points, an ASCII string, and the empty string. -/
theorem countCharacters_unicode_ranges_witness :
    countCharacters "あイ漢" = { fullWidth := "あイ漢".length, halfWidth := 0 } ∧
    countCharacters "abc123" = { fullWidth := 0, halfWidth := "abc123".length } ∧
    countCharacters "" = { fullWidth := 0, halfWidth := 0 } :=
  ⟨countCharacters_unicode_ranges.1 "あイ漢" (by decide),
    countCharacters_unicode_ranges.2.1 "abc123" (by decide),
    countCharacters_unicode_ranges.2.2⟩

/-- C5: the Width Measurer splits the input on line-break characters and
returns the maximum of the per-line rendered widths: whenever every line's
rendered width is nonnegative, the result bounds every line's width from above
and is itself one of the per-line widths. -/
theorem measureLines_max_of_line_widths (render : String → Px) (text : String)
    (hnn : ∀ l ∈ splitLines text, 0 ≤ render l) :
    (∀ l ∈ splitLines text, render l ≤ measureLines render text) ∧
    measureLines render text ∈ (splitLines text).map render := by
  refine ⟨line_le_measureLines render text, ?_⟩
  rcases measureLines_eq_zero_or_mem render text with h | h
  · cases hsp : splitLines text with
    | nil => exact absurd hsp (splitLines_ne_nil text)
    | cons l0 ls =>
        have hmem0 : l0 ∈ splitLines text := by
          rw [hsp]; exact List.mem_cons_self _ _
        have h0 : render l0 ≤ measureLines render text :=
          line_le_measureLines render text l0 hmem0
        have h2 : measureLines render text = render l0 := by
          rw [h]
          exact le_antisymm (hnn l0 hmem0) (h ▸ h0)
        rw [h2]
        exact List.mem_map_of_mem render (List.mem_cons_self _ _)
  · exact h

/-- Witness for C5: a three-line text whose lines render at widths 40, 120 and
75 measures as the width of its widest line, 120. -/
theorem measureLines_max_of_line_widths_witness :
    (∀ l ∈ splitLines "a\nbb\nccc",
        sampleRender l ≤ measureLines sampleRender "a\nbb\nccc") ∧
    measureLines sampleRender "a\nbb\nccc" ∈ (splitLines "a\nbb\nccc").map sampleRender ∧
    measureLines sampleRender "a\nbb\nccc" = 120 := by
  have h := measureLines_max_of_line_widths sampleRender "a\nbb\nccc" (by decide)
  exact ⟨h.1, h.2, by decide⟩

/-- C6: each bar's displayed length equals its own width divided by
`max referenceWidth inputWidth`, times 100, so the larger of the two widths
(or either, when equal and positive) renders at exactly 100 percent, and when
both widths are 0 both bars render at 0 percent. -/
theorem bar_widths_normalized (referenceWidth inputWidth : Px) :
    (0 < max referenceWidth inputWidth →
        referenceBarWidth referenceWidth inputWidth =
          referenceWidth / max referenceWidth inputWidth * 100 ∧
        inputBarWidth referenceWidth inputWidth =
          inputWidth / max referenceWidth inputWidth * 100) ∧
    (inputWidth ≤ referenceWidth → 0 < referenceWidth →
        referenceBarWidth referenceWidth inputWidth = 100) ∧
    (referenceWidth ≤ inputWidth → 0 < inputWidth →
        inputBarWidth referenceWidth inputWidth = 100) ∧
    (referenceWidth = 0 → inputWidth = 0 →
        referenceBarWidth referenceWidth inputWidth = 0 ∧
        inputBarWidth referenceWidth inputWidth = 0) := by
  refine ⟨?_, ?_, ?_, ?_⟩
  · intro h
    unfold referenceBarWidth inputBarWidth
    rw [if_pos h, if_pos h]
    exact ⟨rfl, rfl⟩
  · intro h1 h2
    unfold referenceBarWidth
    rw [max_eq_left h1, if_pos h2, div_self (ne_of_gt h2), one_mul]
  · intro h1 h2
    unfold inputBarWidth
    rw [max_eq_right h1, if_pos h2, div_self (ne_of_gt h2), one_mul]
  · intro h1 h2
    subst h1
    subst h2
    unfold referenceBarWidth inputBarWidth
    simp

/-- Witness for C6: with `referenceWidth = 560` and `inputWidth = 280` the
reference bar renders at 100 percent and the input bar at 50 percent. -/
theorem bar_widths_normalized_witness :
    referenceBarWidth 560 280 = 100 ∧ inputBarWidth 560 280 = 50 := by
  refine ⟨(bar_widths_normalized 560 280).2.1 (by norm_num) (by norm_num), ?_⟩
  have h := ((bar_widths_normalized 560 280).1 (by norm_num)).2
  have hm : max (560 : Px) 280 = 560 := max_eq_left (by norm_num)
  rw [h, hm]
  norm_num

/-- C7: whenever the reference-count change handler runs with a stored value
less than 1, the count is silently reset to 1 before recomputation, so after
every handler invocation `referenceCharCount ≥ 1` holds, the theoretical width
recomputes to 16 for a clamped value, and a value of 1 or more (with no upper
bound) passes through unchanged; in both views. -/
theorem referenceCharCount_clamped_to_one :
    (∀ (render : String → Px) (s : SingleState),
        1 ≤ ((s.handleReferenceCharCountChange render).1).referenceCharCount ∧
        (s.referenceCharCount < 1 →
            ((s.handleReferenceCharCountChange render).1).referenceCharCount = 1 ∧
            theoreticalReferenceWidth
              (((s.handleReferenceCharCountChange render).1).referenceCharCount) = 16) ∧
        (1 ≤ s.referenceCharCount →
            ((s.handleReferenceCharCountChange render).1).referenceCharCount =
              s.referenceCharCount)) ∧
    (∀ (render : String → Px) (s : MultiState),
        1 ≤ (s.handleReferenceCharCountChange render).referenceCharCount ∧
        (s.referenceCharCount < 1 →
            (s.handleReferenceCharCountChange render).referenceCharCount = 1 ∧
            theoreticalReferenceWidth
              ((s.handleReferenceCharCountChange render).referenceCharCount) = 16) ∧
        (1 ≤ s.referenceCharCount →
            (s.handleReferenceCharCountChange render).referenceCharCount =
              s.referenceCharCount)) := by
  have hsingle : ∀ (render : String → Px) (s : SingleState),
      ((s.handleReferenceCharCountChange render).1).referenceCharCount =
        if s.referenceCharCount < 1 then 1 else s.referenceCharCount := by
    intro render s
    unfold SingleState.handleReferenceCharCountChange
    rw [SingleState.singleMeasure_referenceCharCount]
    by_cases h : s.referenceCharCount < 1
    · rw [if_pos h, if_pos h]
    · rw [if_neg h, if_neg h]
  have hmulti : ∀ (render : String → Px) (s : MultiState),
      (s.handleReferenceCharCountChange render).referenceCharCount =
        if s.referenceCharCount < 1 then 1 else s.referenceCharCount := by
    intro render s
    unfold MultiState.handleReferenceCharCountChange
    rw [MultiState.measureAll_referenceCharCount]
    by_cases h : s.referenceCharCount < 1
    · rw [if_pos h, if_pos h]
    · rw [if_neg h, if_neg h]
  constructor
  · intro render s
    refine ⟨?_, ?_, ?_⟩
    · rw [hsingle render s]
      split <;> omega
    · intro h
      rw [hsingle render s, if_pos h]
      exact ⟨rfl, by decide⟩
    · intro h
      rw [hsingle render s, if_neg (by omega)]
  · intro render s
    refine ⟨?_, ?_, ?_⟩
    · rw [hmulti render s]
      split <;> omega
    · intro h
      rw [hmulti render s, if_pos h]
      exact ⟨rfl, by decide⟩
    · intro h
      rw [hmulti render s, if_neg (by omega)]

/-- Witness for C7: a stored count of -5 is clamped to 1 with theoretical
width 16, and a count of 500 (above the soft UI bound of 200) passes through
the handler unchanged. -/
theorem referenceCharCount_clamped_to_one_witness :
    ((((singleStateWithCount (-5)).handleReferenceCharCountChange
          zeroRender).1).referenceCharCount = 1 ∧
      theoreticalReferenceWidth
        ((((singleStateWithCount (-5)).handleReferenceCharCountChange
            zeroRender).1).referenceCharCount) = 16) ∧
    (((singleStateWithCount 500).handleReferenceCharCountChange
        zeroRender).1).referenceCharCount = (singleStateWithCount 500).referenceCharCount :=
  ⟨(referenceCharCount_clamped_to_one.1 zeroRender (singleStateWithCount (-5))).2.1
      (by decide),
    (referenceCharCount_clamped_to_one.1 zeroRender (singleStateWithCount 500)).2.2
      (by decide)⟩

/-- C3: after a multi-field measurement pass of an existing field, the field's
`exceedsReference` flag is true exactly when its measured width is strictly
greater than the theoretical reference width `charCount × 16`; equality yields
false. -/
theorem exceedsReference_iff_gt_theoretical (render : String → Px) (s : MultiState)
    (index : ℕ) (ta ta' : TextAreaData)
    (hta : s.textAreas[index]? = some ta)
    (hta' : ((s.measureWidth render index).1.textAreas)[index]? = some ta') :
    (ta'.exceedsReference = true ↔
      (theoreticalReferenceWidth s.referenceCharCount : ℚ) < ta'.width) ∧
    (ta'.width = (theoreticalReferenceWidth s.referenceCharCount : ℚ) →
      ta'.exceedsReference = false) := by
  have hg := MultiState.measureWidth_get render s index ta hta
  rw [hta'] at hg
  have hupd := Option.some.inj hg
  subst hupd
  constructor
  · show decide ((theoreticalReferenceWidth s.referenceCharCount : ℚ) <
        measureLines render ta.text) = true ↔
      (theoreticalReferenceWidth s.referenceCharCount : ℚ) < measureLines render ta.text
    exact ⟨of_decide_eq_true, decide_eq_true⟩
  · show measureLines render ta.text = (theoreticalReferenceWidth s.referenceCharCount : ℚ) →
      decide ((theoreticalReferenceWidth s.referenceCharCount : ℚ) <
        measureLines render ta.text) = false
    intro h
    apply decide_eq_false
    intro hlt
    rw [h] at hlt
    exact lt_irrefl _ hlt

/-- Witness for C3: measuring the one-field state with a surface reporting
width 1 yields a field of width 1 and a false flag against the theoretical
width 16. -/
theorem exceedsReference_iff_gt_theoretical_witness :
    (smallMeasuredField.exceedsReference = true ↔
      (theoreticalReferenceWidth smallMultiState.referenceCharCount : ℚ) <
        smallMeasuredField.width) ∧
    (smallMeasuredField.width =
        (theoreticalReferenceWidth smallMultiState.referenceCharCount : ℚ) →
      smallMeasuredField.exceedsReference = false) :=
  exceedsReference_iff_gt_theoretical unitRender smallMultiState 0 (defaultTextArea "a")
    smallMeasuredField (by decide) (by decide)

/-- C2, amended: in the single-field view, an empty input text yields measured
width 0 and the input measurement surface is not invoked (nothing is written
to it); in the multi-field view, however, a field's empty text is still
written to its measurement surface as one empty line whose geometry is read,
and the resulting width is 0 provided the surface reports width 0 for empty
content. -/
theorem measureWidth_empty_text :
    (∀ (render : String → Px) (s : SingleState), s.inputText = "" →
        (s.measureWidth render).1.inputWidth = 0 ∧ (s.measureWidth render).2 = []) ∧
    (∀ (render : String → Px) (s : MultiState) (index : ℕ) (ta : TextAreaData),
        s.textAreas[index]? = some ta → ta.text = "" →
        (s.measureWidth render index).2 = [""] ∧
        (render "" = 0 →
          ∀ ta', ((s.measureWidth render index).1.textAreas)[index]? = some ta' →
            ta'.width = 0)) := by
  constructor
  · intro render s h
    constructor <;> simp [SingleState.measureWidth, h]
  · intro render s index ta hta htext
    constructor
    · have h2 : (s.measureWidth render index).2 = splitLines ta.text := by
        simp [MultiState.measureWidth, hta]
      rw [h2, htext]
      decide
    · intro hrender ta' hta'
      have hg := MultiState.measureWidth_get render s index ta hta
      rw [hta'] at hg
      have hupd := Option.some.inj hg
      subst hupd
      show measureLines render ta.text = 0
      rw [htext]
      unfold measureLines
      have hsp : splitLines "" = [""] := by decide
      rw [hsp, List.foldl_cons, List.foldl_nil, hrender]
      simp

/-- Witness for C2 at concrete states: the single-field view with empty input
measures 0 and writes nothing; the multi-field view with an empty field still
writes the empty line once. -/
theorem measureWidth_empty_text_witness :
    ((singleEmptyState.measureWidth zeroRender).1.inputWidth = 0 ∧
      (singleEmptyState.measureWidth zeroRender).2 = []) ∧
    (emptyFieldState.measureWidth zeroRender 0).2 = [""] :=
  ⟨measureWidth_empty_text.1 zeroRender singleEmptyState rfl,
    (measureWidth_empty_text.2 zeroRender emptyFieldState 0 (defaultTextArea "")
        (by decide) rfl).1⟩

/-- Counterexample to C2 as stated: in the multi-field view, measuring a field
whose text is the empty string does invoke the measurement surface — the empty
line is written to it (and its geometry read), so the list of written contents
is not empty. -/
theorem measureWidth_empty_text_invokes_surface_multi :
    (emptyFieldState.measureWidth zeroRender 0).2 = [""] ∧
    (emptyFieldState.measureWidth zeroRender 0).2 ≠ [] :=
  ⟨by decide, by decide⟩

/-- C1, amended: if the font-load call rejects, both views still transition to
ready (`fontLoaded` becomes true); the single-field view then performs the
initial measurement pass for the current text and reference setting, but the
multi-field view performs no measurement pass on this path — its fields and
its reference width are left unchanged. -/
theorem onMounted_reject_fail_open :
    (∀ (render : String → Px) (s : SingleState),
        (s.onMounted render true).fontLoaded = true ∧
        s.onMounted render true = (({ s with fontLoaded := true }).measureWidth render).1) ∧
    (∀ (render : String → Px) (s : MultiState),
        (s.onMounted render true).fontLoaded = true ∧
        s.onMounted render true = { s with fontLoaded := true }) := by
  constructor
  · intro render s
    refine ⟨?_, rfl⟩
    exact SingleState.measureWidth_fontLoaded render { s with fontLoaded := true }
  · intro render s
    exact ⟨rfl, rfl⟩

/-- Counterexample to C1 as stated: starting from the multi-field view's
initial state with a surface reporting width 1, a rejected font load leaves
field 0 with its initialization value `fullWidthCount = 0`, whereas the
resolved path's initial measurement pass computes `fullWidthCount = 10` for
the same field — so no measurement pass covering the fields happens on the
rejection path, although `fontLoaded` does become true. -/
theorem onMounted_reject_skips_multi_measurement :
    (initialMultiState.onMounted unitRender true).fontLoaded = true ∧
    ((initialMultiState.onMounted unitRender true).textAreas[0]?).map
        TextAreaData.fullWidthCount = some 0 ∧
    ((initialMultiState.onMounted unitRender false).textAreas[0]?).map
        TextAreaData.fullWidthCount = some 10 := by
  refine ⟨rfl, rfl, by decide⟩

/-- C10: calling the multi-field measurer with an index that has no
corresponding field only re-measures the shared reference width: the fields
are left entirely unchanged, nothing is written to any field's measurement
surface, and `inputCharCount` returns 0 for such an index. -/
theorem measureWidth_out_of_range_noop (render : String → Px) (s : MultiState) (index : ℕ)
    (h : s.textAreas.length ≤ index) :
    (s.measureWidth render index).1 =
      { s with referenceWidth := render (referenceText s.referenceCharCount) } ∧
    (s.measureWidth render index).1.textAreas = s.textAreas ∧
    (s.measureWidth render index).2 = [] ∧
    s.inputCharCount index = 0 := by
  have hnone : s.textAreas[index]? = none := List.getElem?_eq_none h
  refine ⟨?_, ?_, ?_, ?_⟩ <;>
    simp [MultiState.measureWidth, MultiState.inputCharCount, hnone]

/-- Witness for C10: index 3 of the three-field initial state. -/
theorem measureWidth_out_of_range_noop_witness :
    (initialMultiState.measureWidth unitRender 3).1 =
      { initialMultiState with
          referenceWidth := unitRender (referenceText initialMultiState.referenceCharCount) } ∧
    (initialMultiState.measureWidth unitRender 3).1.textAreas =
      initialMultiState.textAreas ∧
    (initialMultiState.measureWidth unitRender 3).2 = [] ∧
    initialMultiState.inputCharCount 3 = 0 :=
  measureWidth_out_of_range_noop unitRender initialMultiState 3 (by decide)

end TextWidthTool
